import Mathlib

/-!
Verification of the `JSONObject` core of the jsonclasses repository
(`src/jsonclasses/json_object.py`).

The development is a shallow embedding of the Python code:

* Python objects live in a `Heap` mapping object ids to an `Obj` (a class
  name plus an association list of instance attributes, mirroring
  `obj.__dict__`).
* `Val` is the universe of Python values the code manipulates: scalars,
  `None`, references to `JSONObject` instances (`Val.obj`), raw lists and
  dicts, and the `OwnedList`/`OwnedDict` wrappers which additionally carry
  their `owner` object id and `keypath` string.
* `JSONObject` is declared `@dataclass(init=False)` (json_object.py line
  16), so instance equality is the dataclass-generated structural
  `__eq__`: same class and pairwise-equal declared field values, with
  CPython's per-element identity shortcut (`PyObject_RichCompareBool`)
  inside tuple and list comparisons.  `pyEqVal` embeds this Python `==`
  as a fueled function over the heap; exhausting the comparison budget
  models CPython's `RecursionError`, reported as an error, never as an
  answer.  The checks on lines 176 (`!=`) and 183 (`in`) are embedded
  through `pyEqVal`, NOT through object identity: two distinct instances
  with equal field values compare equal, exactly as in CPython.
* `setattrF` embeds `JSONObject.__setattr__` (json_object.py lines
  154-184).  The recursion of the relationship-synchronization hook (the
  nested `setattr` calls on lines 177 and 181) is made total with an
  explicit fuel parameter; running out of fuel is reported as a distinct
  pseudo-error, so fuel-insensitivity theorems express termination of the
  Python recursion.  The comparison budget `eqFuel` is threaded
  separately from the synchronization fuel so that termination of the
  synchronization recursion can be stated independently of how deep a
  particular equality comparison needs to descend.  A raised Python
  exception is modelled as the pair of the heap at raise time and `some`
  error, because Python exceptions do not roll back side effects already
  performed.
* `updateF` embeds `JSONObject.update` (lines 75-93).
* The traversal entry points `__init__`/`__set`, `set`, `validate`,
  `is_valid` and `tojson` (lines 33-152) are embedded with the engine
  (`InstanceOfValidator`, whose source is not part of the repository
  snapshot) abstracted as a function parameter, and with lookup-map
  allocation threaded through an explicit allocation counter so that
  freshness of `LookupMap()` allocations is expressible.
-/

namespace Jsonclasses

/-- Python values manipulated by `json_object.py`.  `obj i` is a reference
to the `JSONObject` instance with id `i`; `olist`/`odict` are the
`OwnedList`/`OwnedDict` wrappers with their `owner` id and `keypath`. -/
inductive Val where
  | none
  | bool (b : Bool)
  | int (n : Int)
  | str (s : String)
  | obj (id : Nat)
  | vlist (elems : List Val)
  | olist (owner : Nat) (keypath : String) (elems : List Val)
  | vdict (entries : List (String × Val))
  | odict (owner : Nat) (keypath : String) (entries : List (String × Val))

/-- `isinstance(value, list)` — true for raw lists and for `OwnedList`
(which subclasses `list`). -/
def isListVal : Val → Bool
  | Val.vlist _ => true
  | Val.olist _ _ _ => true
  | _ => false

/-- `isinstance(value, dict)` — true for raw dicts and for `OwnedDict`
(which subclasses `dict`). -/
def isDictVal : Val → Bool
  | Val.vdict _ => true
  | Val.odict _ _ _ => true
  | _ => false

/-- `isinstance(value, JSONObject)`. -/
def isObjVal : Val → Bool
  | Val.obj _ => true
  | _ => false

/-- The elements of a (possibly owned) list value; `OwnedList[Any](value)`
copies exactly these elements. -/
def listElems : Val → List Val
  | Val.vlist xs => xs
  | Val.olist _ _ xs => xs
  | _ => []

/-- The entries of a (possibly owned) dict value. -/
def dictEntries : Val → List (String × Val)
  | Val.vdict xs => xs
  | Val.odict _ _ xs => xs
  | _ => []

/-- Identity test (`x is a` for the instance with id `a`).  Used only in
specification statements — for example to count how often the instance
itself occurs in a back-link list — never by the embedded code, whose
equality checks are the structural `pyEqVal` below. -/
def isRefTo : Val → Nat → Bool
  | Val.obj i, o => i == o
  | _, _ => false

/-- `list.append` on a (possibly owned) list value, in place: the wrapper
(and its owner/keypath) is kept, only the backing elements grow. -/
def appendElem : Val → Val → Val
  | Val.olist o k xs, x => Val.olist o k (xs ++ [x])
  | Val.vlist xs, x => Val.vlist (xs ++ [x])
  | v, _ => v

/-- Number of occurrences of the instance `o` itself (by identity) among
the elements of a list value (`0` for non-list values).  A specification
device, not part of the embedded code. -/
def occCount (v : Val) (o : Nat) : Nat :=
  (listElems v).countP (fun x => isRefTo x o)

/-- `FieldStorage` (fields.py, consumed by json_object.py lines 171-172). -/
inductive FieldStorage where
  | embedded
  | localKey
  | foreignKey
deriving DecidableEq

/-- `FieldType` (fields.py, consumed by json_object.py lines 175-178);
only the constructors the hook dispatches on are distinguished. -/
inductive FieldType where
  | inst
  | list
  | dict
  | str
  | int
deriving DecidableEq

/-- `FieldDescription`: the static per-field metadata the hook reads. -/
structure FieldDescription where
  field_type : FieldType
  field_storage : FieldStorage
deriving DecidableEq

/-- A field of a JSON Class: its name and its description (fields.py). -/
structure Field where
  field_name : String
  field_description : FieldDescription
deriving DecidableEq

/-- Modelled from the spec: the Field Descriptor Table and the
inverse-field resolution (`fields` and `other_field` of fields.py, which
is not part of the repository snapshot).  §6 of the spec: for a given
class, `fieldsOf` returns its declared field descriptors (these are the
class's dataclass fields, which the generated `__eq__` compares), and
`otherField self_cls value_cls f` is `inverse_field_lookup(other_object,
this_field)`: the descriptor on the assigned object's class that is the
inverse of `f`, or absent for a unidirectional relationship.  The core
only reads this table. -/
structure ClassGraph where
  fieldsOf : String → List Field
  otherField : String → String → Field → Option Field

/-- `next(f for f in fields(self) if f.field_name == name)` as an optional
lookup (json_object.py line 169); `Option.none` is the `StopIteration`
case. -/
def fieldOf (G : ClassGraph) (cls : String) (name : String) : Option Field :=
  (G.fieldsOf cls).find? (fun f => f.field_name == name)

/-- A `JSONObject` instance: its class name and its `__dict__` as an
insertion-ordered association list. -/
structure Obj where
  cls : String
  attrs : List (String × Val)

/-- The Python heap: every object id resolves to an object. -/
abbrev Heap := Nat → Obj

/-- Insertion-order-preserving update of an association list, mirroring
`dict.__setitem__`. -/
def alistSet : List (String × Val) → String → Val → List (String × Val)
  | [], k, v => [(k, v)]
  | (k', v') :: rest, k, v =>
      if k' = k then (k, v) :: rest else (k', v') :: alistSet rest k v

/-- Association-list lookup, mirroring `dict.get`. -/
def alistGet : List (String × Val) → String → Option Val
  | [], _ => Option.none
  | (k', v') :: rest, k => if k' = k then some v' else alistGet rest k

/-- `object.__setattr__(self, name, value)` (the `super()` call on lines
159, 164, 166): store a value in the instance `__dict__`, bypassing the
hook. -/
def Heap.storeRaw (h : Heap) (oid : Nat) (name : String) (v : Val) : Heap :=
  fun i =>
    if i = oid then { cls := (h i).cls, attrs := alistSet (h i).attrs name v }
    else h i

/-- The class of the instance `oid`. -/
def Heap.clsOf (h : Heap) (oid : Nat) : String := (h oid).cls

/-- `getattr(obj, name)`: read an instance attribute.  Attributes never
stored read as `None`, matching instances whose declared fields were all
initialized (json_object.py lines 39-40). -/
def Heap.getattrD (h : Heap) (oid : Nat) (name : String) : Val :=
  (alistGet (h oid).attrs name).getD Val.none

/-- Exceptions the attribute hook can raise (`StopIteration` from the
field lookup on line 169, `RecursionError` from a comparison that
exceeds the interpreter's recursion budget), plus the pseudo-error
signalling fuel exhaustion of the synchronization recursion of the
embedding (which a terminating Python run never produces). -/
inductive PyErr where
  | stopIteration
  | recursionError
  | fuelExhausted
deriving DecidableEq

/-- Elementwise comparison of two lists with a fallible equality (Python
list `==`: lengths must agree and elements compare pairwise; a comparison
that exhausts its budget aborts the whole comparison). -/
def optAllElems (f : Val → Val → Option Bool) : List Val → List Val → Option Bool
  | [], [] => some true
  | x :: xs, y :: ys =>
    match f x y with
    | Option.none => Option.none
    | some false => some false
    | some true => optAllElems f xs ys
  | _, _ => some false

/-- Pairwise comparison of the attribute values of two instances at a list
of field names (the tuple comparison inside the dataclass `__eq__`). -/
def optAllFields (f : Val → Val → Option Bool) (h : Heap) (i j : Nat) :
    List String → Option Bool
  | [] => some true
  | fname :: rest =>
    match f (h.getattrD i fname) (h.getattrD j fname) with
    | Option.none => Option.none
    | some false => some false
    | some true => optAllFields f h i j rest

/-- Per-entry part of Python dict `==`: every key of the first dict must
be present in the second with an equal value. -/
def optEntriesGo (f : Val → Val → Option Bool) (ys : List (String × Val)) :
    List (String × Val) → Option Bool
  | [] => some true
  | (k, v) :: rest =>
    match alistGet ys k with
    | Option.none => some false
    | some v2 =>
      match f v v2 with
      | Option.none => Option.none
      | some false => some false
      | some true => optEntriesGo f ys rest

/-- Python dict `==`: equal sizes and every key mapped to an equal value
(insertion order is irrelevant). -/
def optAllEntries (f : Val → Val → Option Bool) (xs ys : List (String × Val)) :
    Option Bool :=
  if xs.length = ys.length then optEntriesGo f ys xs else some false

/-- `value in list` (list `__contains__`): scan for an element that
compares equal; a comparison that exhausts its budget aborts the scan. -/
def optAny (f : Val → Option Bool) : List Val → Option Bool
  | [] => some false
  | x :: xs =>
    match f x with
    | Option.none => Option.none
    | some true => some true
    | some false => optAny f xs

/-- Python `==` between two values of the model, as the code on lines 176
and 183 evaluates it.  `JSONObject` is a dataclass, so for two instance
references the generated `__eq__` applies: identical references compare
equal (each field position short-circuits on identity, as
`PyObject_RichCompareBool` does); references of different classes compare
unequal (both sides return `NotImplemented` and Python falls back to
identity); references of the same class compare their declared dataclass
fields pairwise.  Lists (including `OwnedList`) compare elementwise,
dicts (including `OwnedDict`) by size and per-key values, scalars by
value (with CPython's `bool`/`int` cross-equality), and any other mix is
unequal.  The fuel bounds the comparison's recursion depth;
`Option.none` models CPython's `RecursionError`. -/
def pyEqVal (G : ClassGraph) (h : Heap) : Nat → Val → Val → Option Bool
  | 0, _, _ => Option.none
  | fuel + 1, v1, v2 =>
    match v1, v2 with
    | Val.obj i, Val.obj j =>
      if i = j then some true
      else if h.clsOf i = h.clsOf j then
        optAllFields (fun a b => pyEqVal G h fuel a b) h i j
          ((G.fieldsOf (h.clsOf i)).map (fun f => f.field_name))
      else some false
    | Val.obj _, _ => some false
    | _, Val.obj _ => some false
    | Val.none, Val.none => some true
    | Val.bool b1, Val.bool b2 => some (b1 == b2)
    | Val.bool b1, Val.int n2 => some ((if b1 then (1 : Int) else 0) == n2)
    | Val.int n1, Val.bool b2 => some (n1 == (if b2 then (1 : Int) else 0))
    | Val.int n1, Val.int n2 => some (n1 == n2)
    | Val.str s1, Val.str s2 => some (s1 == s2)
    | Val.vlist xs, Val.vlist ys => optAllElems (fun a b => pyEqVal G h fuel a b) xs ys
    | Val.vlist xs, Val.olist _ _ ys => optAllElems (fun a b => pyEqVal G h fuel a b) xs ys
    | Val.olist _ _ xs, Val.vlist ys => optAllElems (fun a b => pyEqVal G h fuel a b) xs ys
    | Val.olist _ _ xs, Val.olist _ _ ys => optAllElems (fun a b => pyEqVal G h fuel a b) xs ys
    | Val.vdict xs, Val.vdict ys => optAllEntries (fun a b => pyEqVal G h fuel a b) xs ys
    | Val.vdict xs, Val.odict _ _ ys => optAllEntries (fun a b => pyEqVal G h fuel a b) xs ys
    | Val.odict _ _ xs, Val.vdict ys => optAllEntries (fun a b => pyEqVal G h fuel a b) xs ys
    | Val.odict _ _ xs, Val.odict _ _ ys => optAllEntries (fun a b => pyEqVal G h fuel a b) xs ys
    | _, _ => some false

/-- Embedding of `JSONObject.__setattr__` (json_object.py lines 154-184).
Lists and dicts are wrapped into owned collections carrying `owner := self`
and `keypath := name` (lines 155-164); any other value is first stored raw
(line 166); a stored `JSONObject` value then triggers the relationship
synchronization hook (lines 167-184), whose nested `setattr` calls recurse
on the fuel argument.  The equality checks of the hook — `getattr(...) !=
self` on line 176 and `self not in getattr(...)` on line 183 — are
evaluated with `pyEqVal` (dataclass structural equality) at the comparison
budget `eqFuel`, on the heap that already contains the line-166 store.
The result is the heap after all performed side effects together with the
exception raised, if any. -/
def setattrF (G : ClassGraph) (eqFuel : Nat) :
    Nat → Heap → Nat → String → Val → Heap × Option PyErr
  | 0, h, _, _, _ => (h, some PyErr.fuelExhausted)
  | fuel + 1, h, oid, name, v =>
    if isListVal v = true then
      (h.storeRaw oid name (Val.olist oid name (listElems v)), Option.none)
    else if isDictVal v = true then
      (h.storeRaw oid name (Val.odict oid name (dictEntries v)), Option.none)
    else
      let h1 := h.storeRaw oid name v
      match v with
      | Val.obj vid =>
        match fieldOf G (h1.clsOf oid) name with
        | Option.none => (h1, some PyErr.stopIteration)
        | some sfield =>
          if sfield.field_description.field_storage = FieldStorage.localKey ∨
              sfield.field_description.field_storage = FieldStorage.foreignKey then
            match G.otherField (h1.clsOf oid) (h1.clsOf vid) sfield with
            | Option.none => (h1, Option.none)
            | some ofield =>
              if ofield.field_description.field_type = FieldType.inst then
                match pyEqVal G h1 eqFuel (h1.getattrD vid ofield.field_name)
                    (Val.obj oid) with
                | Option.none => (h1, some PyErr.recursionError)
                | some true => (h1, Option.none)
                | some false =>
                  setattrF G eqFuel fuel h1 vid ofield.field_name (Val.obj oid)
              else if ofield.field_description.field_type = FieldType.list then
                if isListVal (h1.getattrD vid ofield.field_name) = true then
                  match optAny (fun x => pyEqVal G h1 eqFuel x (Val.obj oid))
                      (listElems (h1.getattrD vid ofield.field_name)) with
                  | Option.none => (h1, some PyErr.recursionError)
                  | some true => (h1, Option.none)
                  | some false =>
                    (h1.storeRaw vid ofield.field_name
                      (appendElem (h1.getattrD vid ofield.field_name) (Val.obj oid)),
                     Option.none)
                else
                  setattrF G eqFuel fuel h1 vid ofield.field_name
                    (Val.vlist [Val.obj oid])
              else (h1, Option.none)
          else (h1, Option.none)
      | _ => (h1, Option.none)

theorem alistGet_set_self (l : List (String × Val)) (k : String) (v : Val) :
    alistGet (alistSet l k v) k = some v := by
  induction l with
  | nil => simp [alistSet, alistGet]
  | cons p rest ih =>
    obtain ⟨k', v'⟩ := p
    by_cases hk : k' = k
    · simp [alistSet, alistGet, hk]
    · simp [alistSet, alistGet, hk, ih]

theorem alistGet_set_other (l : List (String × Val)) {k k' : String} (hk : k' ≠ k)
    (v : Val) : alistGet (alistSet l k v) k' = alistGet l k' := by
  induction l with
  | nil => simp [alistSet, alistGet, Ne.symm hk]
  | cons p rest ih =>
    obtain ⟨k0, v0⟩ := p
    by_cases h0 : k0 = k
    · subst h0
      simp [alistSet, alistGet, Ne.symm hk]
    · simp [alistSet, alistGet, h0, ih]

@[simp] theorem clsOf_storeRaw (h : Heap) (o : Nat) (n : String) (v : Val) (x : Nat) :
    (h.storeRaw o n v).clsOf x = h.clsOf x := by
  by_cases hx : x = o <;> simp [Heap.storeRaw, Heap.clsOf, hx]

@[simp] theorem getattrD_storeRaw_self (h : Heap) (o : Nat) (n : String) (v : Val) :
    (h.storeRaw o n v).getattrD o n = v := by
  simp [Heap.storeRaw, Heap.getattrD, alistGet_set_self]

theorem getattrD_storeRaw_ne_obj (h : Heap) {x o : Nat} (hx : x ≠ o)
    (n m : String) (v : Val) : (h.storeRaw o n v).getattrD x m = h.getattrD x m := by
  simp [Heap.storeRaw, Heap.getattrD, hx]

theorem getattrD_storeRaw_ne_name (h : Heap) (x o : Nat) {n m : String}
    (hm : m ≠ n) (v : Val) : (h.storeRaw o n v).getattrD x m = h.getattrD x m := by
  by_cases hx : x = o
  · subst hx
    simp [Heap.storeRaw, Heap.getattrD, alistGet_set_other _ hm]
  · simp [Heap.storeRaw, Heap.getattrD, hx]

@[simp] theorem isListVal_obj (i : Nat) : isListVal (Val.obj i) = false := rfl

@[simp] theorem isDictVal_obj (i : Nat) : isDictVal (Val.obj i) = false := rfl

@[simp] theorem isListVal_vlist (xs : List Val) : isListVal (Val.vlist xs) = true := rfl

@[simp] theorem listElems_vlist (xs : List Val) : listElems (Val.vlist xs) = xs := rfl

@[simp] theorem isListVal_olist (o : Nat) (k : String) (xs : List Val) :
    isListVal (Val.olist o k xs) = true := rfl

@[simp] theorem isListVal_vdict (es : List (String × Val)) :
    isListVal (Val.vdict es) = false := rfl

@[simp] theorem isDictVal_vdict (es : List (String × Val)) :
    isDictVal (Val.vdict es) = true := rfl

@[simp] theorem dictEntries_vdict (es : List (String × Val)) :
    dictEntries (Val.vdict es) = es := rfl

@[simp] theorem listElems_olist (o : Nat) (k : String) (xs : List Val) :
    listElems (Val.olist o k xs) = xs := rfl

theorem isListVal_appendElem {v : Val} (hv : isListVal v = true) (x : Val) :
    isListVal (appendElem v x) = true := by
  cases v <;> simp_all [isListVal, appendElem]

theorem listElems_appendElem {v : Val} (hv : isListVal v = true) (x : Val) :
    listElems (appendElem v x) = listElems v ++ [x] := by
  cases v <;> simp_all [isListVal, appendElem, listElems]

theorem fieldOf_name {G : ClassGraph} {c name : String} {f : Field}
    (h : fieldOf G c name = some f) : f.field_name = name := by
  have := List.find?_some h
  simpa using this

/-- Python `x == x` for one and the same instance reference is `True` (the
dataclass `__eq__` compares identical field tuples, each position
short-circuiting on identity), for any positive comparison budget. -/
theorem pyEqVal_obj_self (G : ClassGraph) (hh : Heap) {e : Nat} (he : 0 < e)
    (i : Nat) : pyEqVal G hh e (Val.obj i) (Val.obj i) = some true := by
  cases e with
  | zero => omega
  | succ k => simp [pyEqVal]

/-- A comparison with budget zero never produces an answer. -/
theorem pyEqVal_zero (G : ClassGraph) (hh : Heap) (a b : Val) :
    pyEqVal G hh 0 a b = Option.none := rfl

/-- Complete run of `a.name = b` when the resolved inverse field on `b` is
single-valued (`FieldType.INSTANCE`, json_object.py lines 175-177), for a
class graph whose inverse resolution pairs the two fields with each other:
the value is stored on `a` (line 166) and then the stored current value of
`b`'s inverse field is compared to `a` with Python `==`; if the comparison
answers `False`, one nested `setattr` assigns `a` to `b`'s inverse field
and stops there (the nested synchronization finds the forward link in
place); if it answers `True` nothing further happens; if it exhausts its
budget, `RecursionError` propagates.  Two units of synchronization fuel
always suffice. -/
theorem setattr_inst_run (G : ClassGraph) (eqf n : Nat) (h : Heap) (oid vid : Nat)
    (name : String) (sfield ofield : Field)
    (hne : oid ≠ vid)
    (hs : fieldOf G (h.clsOf oid) name = some sfield)
    (hrel : sfield.field_description.field_storage = FieldStorage.localKey ∨
      sfield.field_description.field_storage = FieldStorage.foreignKey)
    (hof : G.otherField (h.clsOf oid) (h.clsOf vid) sfield = some ofield)
    (hty : ofield.field_description.field_type = FieldType.inst)
    (hofFind : fieldOf G (h.clsOf vid) ofield.field_name = some ofield)
    (hback : G.otherField (h.clsOf vid) (h.clsOf oid) ofield = some sfield)
    (hsty : sfield.field_description.field_type = FieldType.inst) :
    setattrF G eqf (n + 1 + 1) h oid name (Val.obj vid) =
      (match pyEqVal G (h.storeRaw oid name (Val.obj vid)) eqf
          ((h.storeRaw oid name (Val.obj vid)).getattrD vid ofield.field_name)
          (Val.obj oid) with
       | Option.none =>
         (h.storeRaw oid name (Val.obj vid), some PyErr.recursionError)
       | some true => (h.storeRaw oid name (Val.obj vid), Option.none)
       | some false =>
         ((h.storeRaw oid name (Val.obj vid)).storeRaw vid ofield.field_name
           (Val.obj oid), Option.none)) := by
  simp only [setattrF, isListVal_obj, isDictVal_obj, Bool.false_eq_true, reduceIte,
    clsOf_storeRaw, hs, hof]
  rw [if_pos hrel, if_pos hty]
  rcases hcmp : pyEqVal G (h.storeRaw oid name (Val.obj vid)) eqf
      ((h.storeRaw oid name (Val.obj vid)).getattrD vid ofield.field_name)
      (Val.obj oid) with _ | b
  · rfl
  · cases b
    · cases eqf with
      | zero => simp [pyEqVal_zero] at hcmp
      | succ ef =>
        simp only [setattrF, isListVal_obj, isDictVal_obj, Bool.false_eq_true,
          reduceIte, clsOf_storeRaw, hofFind, hback]
        by_cases hrel2 : ofield.field_description.field_storage =
            FieldStorage.localKey ∨
            ofield.field_description.field_storage = FieldStorage.foreignKey
        · rw [if_pos hrel2, if_pos hsty]
          rw [fieldOf_name hs, getattrD_storeRaw_ne_obj _ hne,
            getattrD_storeRaw_self]
          simp [pyEqVal]
        · rw [if_neg hrel2]
    · rfl

/-- Complete run of `a.name = b` when the resolved inverse field on `b` is
multi-valued (`FieldType.LIST`, json_object.py lines 178-184): the value
is stored on `a`; then, if the inverse attribute of `b` is not a list it
is replaced (through one nested `setattr`, which wraps) by an owned
one-element list holding `a`; if it is a list, its elements are scanned
with Python `==` against `a`: a hit skips the append, no hit appends `a`
in place, and a comparison that exhausts its budget raises
`RecursionError`.  Two units of synchronization fuel always suffice. -/
theorem setattr_list_run (G : ClassGraph) (eqf n : Nat) (h : Heap) (oid vid : Nat)
    (name : String) (sfield ofield : Field)
    (hne : oid ≠ vid)
    (hs : fieldOf G (h.clsOf oid) name = some sfield)
    (hrel : sfield.field_description.field_storage = FieldStorage.localKey ∨
      sfield.field_description.field_storage = FieldStorage.foreignKey)
    (hof : G.otherField (h.clsOf oid) (h.clsOf vid) sfield = some ofield)
    (htyl : ofield.field_description.field_type = FieldType.list) :
    setattrF G eqf (n + 1 + 1) h oid name (Val.obj vid) =
      (if isListVal (h.getattrD vid ofield.field_name) = true then
        (match optAny (fun x => pyEqVal G (h.storeRaw oid name (Val.obj vid))
            eqf x (Val.obj oid)) (listElems (h.getattrD vid ofield.field_name)) with
         | Option.none =>
           (h.storeRaw oid name (Val.obj vid), some PyErr.recursionError)
         | some true => (h.storeRaw oid name (Val.obj vid), Option.none)
         | some false =>
           ((h.storeRaw oid name (Val.obj vid)).storeRaw vid ofield.field_name
             (appendElem (h.getattrD vid ofield.field_name) (Val.obj oid)),
            Option.none))
      else
        ((h.storeRaw oid name (Val.obj vid)).storeRaw vid ofield.field_name
          (Val.olist vid ofield.field_name [Val.obj oid]), Option.none)) := by
  have hvo : vid ≠ oid := Ne.symm hne
  have htyne : ¬ ofield.field_description.field_type = FieldType.inst := by
    rw [htyl]
    decide
  simp only [setattrF, isListVal_obj, isDictVal_obj, Bool.false_eq_true, reduceIte,
    clsOf_storeRaw, hs, hof]
  rw [if_pos hrel, if_neg htyne, if_pos htyl]
  rw [getattrD_storeRaw_ne_obj h hvo]
  by_cases hl : isListVal (h.getattrD vid ofield.field_name) = true
  · simp only [hl, reduceIte]
  · rw [Bool.not_eq_true] at hl
    simp only [hl, Bool.false_eq_true, reduceIte, isListVal_vlist, listElems_vlist]

/-- Run of `a.name = b` when the resolved inverse field's type is neither
Instance nor List: the hook stores the value and does nothing else. -/
theorem setattr_other_type_run (G : ClassGraph) (eqf n : Nat) (h : Heap)
    (oid vid : Nat) (name : String) (sfield ofield : Field)
    (hs : fieldOf G (h.clsOf oid) name = some sfield)
    (hrel : sfield.field_description.field_storage = FieldStorage.localKey ∨
      sfield.field_description.field_storage = FieldStorage.foreignKey)
    (hof : G.otherField (h.clsOf oid) (h.clsOf vid) sfield = some ofield)
    (ht1 : ¬ ofield.field_description.field_type = FieldType.inst)
    (ht2 : ¬ ofield.field_description.field_type = FieldType.list) :
    setattrF G eqf (n + 1) h oid name (Val.obj vid) =
      (h.storeRaw oid name (Val.obj vid), Option.none) := by
  simp only [setattrF, isListVal_obj, isDictVal_obj, Bool.false_eq_true,
    reduceIte, clsOf_storeRaw, hs, hof]
  rw [if_pos hrel, if_neg ht1, if_neg ht2]

/-- Run of `a.name = b` when the assigning field's storage is not a
relationship storage: the hook stores the value and does nothing else. -/
theorem setattr_plain_storage_run (G : ClassGraph) (eqf n : Nat) (h : Heap)
    (oid vid : Nat) (name : String) (sfield : Field)
    (hs : fieldOf G (h.clsOf oid) name = some sfield)
    (hnrel : ¬ (sfield.field_description.field_storage = FieldStorage.localKey ∨
      sfield.field_description.field_storage = FieldStorage.foreignKey)) :
    setattrF G eqf (n + 1) h oid name (Val.obj vid) =
      (h.storeRaw oid name (Val.obj vid), Option.none) := by
  simp only [setattrF, isListVal_obj, isDictVal_obj, Bool.false_eq_true,
    reduceIte, clsOf_storeRaw, hs]
  rw [if_neg hnrel]

/-- Errors `JSONObject.update` can raise: the `ValueError` listing every
key of the input that is not an existing attribute (json_object.py lines
87-90), or an exception propagated out of one of its `setattr` calls. -/
inductive UErr where
  | keyMismatch (keys : List String)
  | py (e : PyErr)
deriving DecidableEq

/-- The assignment loop of `JSONObject.update` (lines 91-92): `setattr`
each key in order; an exception raised by one assignment propagates,
keeping the side effects performed so far. -/
def runAssignments (G : ClassGraph) (eqFuel fuel : Nat) :
    Heap → Nat → List (String × Val) → Heap × Option PyErr
  | h, _, [] => (h, Option.none)
  | h, oid, (k, v) :: rest =>
    match setattrF G eqFuel fuel h oid k v with
    | (h', some e) => (h', some e)
    | (h', Option.none) => runAssignments G eqFuel fuel h' oid rest

/-- Embedding of `JSONObject.update` (json_object.py lines 75-93): compute
the set of input keys that are not existing instance attributes; if any,
raise listing all of them, touching nothing; otherwise assign every key
through the attribute hook and return `self`. -/
def updateF (G : ClassGraph) (eqFuel fuel : Nat) (h : Heap) (oid : Nat)
    (kwargs : List (String × Val)) : Heap × Except UErr Nat :=
  let unallowed := (kwargs.map Prod.fst).filter
    (fun k => !(((h oid).attrs.map Prod.fst).contains k))
  if 0 < unallowed.length then
    (h, Except.error (UErr.keyMismatch unallowed))
  else
    match runAssignments G eqFuel fuel h oid kwargs with
    | (h', Option.none) => (h', Except.ok oid)
    | (h', some e) => (h', Except.error (UErr.py e))

/-- Modelled from the spec: `Config` (config.py, not under src/) — the
per-class settings installed by the `@jsonclass` decorator and read by the
core (spec §6). -/
structure Config where
  class_graph : String
  camelize_json_keys : Bool
  camelize_db_keys : Bool
deriving DecidableEq

/-- Modelled from the spec: `LookupMap` (lookup_map.py, not under src/) is
the per-traversal identity-keyed visited set (spec §3).  The embedding
additionally tags each `LookupMap()` allocation with the identity `mapId`
it receives from an explicit allocation counter, so that freshness and
non-sharing of lookup maps across calls are expressible. -/
structure LookupMap where
  mapId : Nat
  visited : List (Nat × String)

/-- `LookupMap()`: allocate a fresh, empty lookup map and advance the
allocation counter. -/
def newLookupMap (σ : Nat) : LookupMap × Nat := (⟨σ, []⟩, σ + 1)

/-- `TransformingContext` exactly as constructed by `JSONObject.__set`
(json_object.py lines 58-72). -/
structure TransformingContext where
  value : List (String × Val)
  keypath_root : String
  root : Nat
  config_root : Config
  keypath_owner : String
  owner : Nat
  config_owner : Config
  keypath_parent : String
  parent : Nat
  field_description : Option FieldDescription
  all_fields : Bool
  dest : Nat
  fill_dest_blanks : Bool
  lookup_map : LookupMap

/-- `ValidatingContext` exactly as constructed by `JSONObject.validate`
(json_object.py lines 125-137). -/
structure ValidatingContext where
  value : Nat
  keypath_root : String
  root : Nat
  config_root : Config
  keypath_owner : String
  owner : Nat
  config_owner : Config
  keypath_parent : String
  parent : Nat
  field_description : Option FieldDescription
  all_fields : Option Bool
  lookup_map : LookupMap

/-- `ValidationException` (exceptions.py): the aggregate of field-level
messages keyed by keypath that `validate` raises. -/
structure ValidationException where
  keypath_messages : List (String × String)
deriving DecidableEq

/-- Modelled from the spec: `ToJSONContext` (contexts.py, not under src/).
json_object.py lines 107-109 construct it from the value, the class config
and the `ignore_writeonly` flag; per spec §5 every top-level `to_json`
call creates exactly one fresh Lookup Map for its traversal, so the
context carries the lookup map the call allocates. -/
structure ToJSONContext where
  value : Nat
  config : Config
  ignore_writeonly : Bool
  lookup_map : LookupMap

/-- Embedding of the private `JSONObject.__set` (json_object.py lines
54-73): build one `TransformingContext` seeded with a freshly allocated
`LookupMap()` and run the transform engine `E`
(`InstanceOfValidator.transform`, not under src/, abstracted as a
parameter).  Returns the transformed heap, the next allocation counter and
the list of lookup-map identities the call allocated. -/
def privateSet (E : TransformingContext → Heap → Heap) (cfg : Config) (h : Heap)
    (oid : Nat) (fill_blanks : Bool) (kwargs : List (String × Val)) (σ : Nat) :
    (Heap × Nat) × List Nat :=
  let (lm, σ1) := newLookupMap σ
  let ctx : TransformingContext :=
    { value := kwargs, keypath_root := "", root := oid, config_root := cfg,
      keypath_owner := "", owner := oid, config_owner := cfg,
      keypath_parent := "", parent := oid, field_description := Option.none,
      all_fields := true, dest := oid, fill_dest_blanks := fill_blanks,
      lookup_map := lm }
  ((E ctx h, σ1), [lm.mapId])

/-- `JSONObject.__init__` (json_object.py lines 33-41): set every declared
field to `None` through the attribute hook, then `__set(fill_blanks=True)`. -/
def jsonclassInit (G : ClassGraph) (E : TransformingContext → Heap → Heap)
    (cfg : Config) (fieldNames : List String) (h : Heap) (oid : Nat)
    (kwargs : List (String × Val)) (σ : Nat) : (Heap × Nat) × List Nat :=
  let h0 := fieldNames.foldl (fun hh nm => (setattrF G 1 1 hh oid nm Val.none).1) h
  privateSet E cfg h0 oid true kwargs σ

/-- `JSONObject.set` (json_object.py lines 43-52): `__set(fill_blanks=False)`. -/
def jsonclassSet (E : TransformingContext → Heap → Heap) (cfg : Config)
    (h : Heap) (oid : Nat) (kwargs : List (String × Val)) (σ : Nat) :
    (Heap × Nat) × List Nat :=
  privateSet E cfg h oid false kwargs σ

/-- Embedding of `JSONObject.validate` (json_object.py lines 112-139):
build one `ValidatingContext` seeded with a freshly allocated `LookupMap()`
and run the validation engine `V` (`InstanceOfValidator.validate`, not
under src/, abstracted); a reported failure is the raised
`ValidationException`, success returns `self`. -/
def jsonclassValidate (V : ValidatingContext → Heap → Option ValidationException)
    (cfg : Config) (h : Heap) (oid : Nat) (all_fields : Option Bool) (σ : Nat) :
    (Except ValidationException Nat × Nat) × List Nat :=
  let (lm, σ1) := newLookupMap σ
  let ctx : ValidatingContext :=
    { value := oid, keypath_root := "", root := oid, config_root := cfg,
      keypath_owner := "", owner := oid, config_owner := cfg,
      keypath_parent := "", parent := oid, field_description := Option.none,
      all_fields := all_fields, lookup_map := lm }
  match V ctx h with
  | some e => ((Except.error e, σ1), [lm.mapId])
  | Option.none => ((Except.ok oid, σ1), [lm.mapId])

/-- Embedding of `JSONObject.is_valid` (json_object.py lines 141-152):
call `validate(all_fields=False)`, turn a raised `ValidationException`
into `False` and success into `True`.  The result type `Bool` (not an
`Except`) embeds the fact that the exception cannot escape the caller. -/
def jsonclassIsValid (V : ValidatingContext → Heap → Option ValidationException)
    (cfg : Config) (h : Heap) (oid : Nat) (σ : Nat) : Bool × Nat :=
  match jsonclassValidate V cfg h oid (some false) σ with
  | ((Except.error _, σ1), _) => (false, σ1)
  | ((Except.ok _, σ1), _) => (true, σ1)

/-- Embedding of `JSONObject.tojson` (json_object.py lines 95-110) with the
serialize engine `S` (`InstanceOfValidator.tojson`, not under src/)
abstracted; the `ToJSONContext` is seeded with the traversal's freshly
allocated lookup map. -/
def jsonclassTojson (S : ToJSONContext → Heap → List (String × Val))
    (cfg : Config) (h : Heap) (oid : Nat) (ignore_writeonly : Bool) (σ : Nat) :
    (List (String × Val) × Nat) × List Nat :=
  let (lm, σ1) := newLookupMap σ
  let ctx : ToJSONContext :=
    { value := oid, config := cfg, ignore_writeonly := ignore_writeonly,
      lookup_map := lm }
  ((S ctx h, σ1), [lm.mapId])

/-- Concrete fixture: the `profile` side of a one-to-one `User ↔ Profile`
relationship. -/
def fProfile : Field :=
  { field_name := "profile",
    field_description := { field_type := FieldType.inst,
                           field_storage := FieldStorage.localKey } }

/-- Concrete fixture: the `user` side of the one-to-one relationship. -/
def fProfUser : Field :=
  { field_name := "user",
    field_description := { field_type := FieldType.inst,
                           field_storage := FieldStorage.foreignKey } }

/-- Concrete fixture: the `author` side of a one-to-many `Post ↔ User`
relationship. -/
def fAuthor : Field :=
  { field_name := "author",
    field_description := { field_type := FieldType.inst,
                           field_storage := FieldStorage.localKey } }

/-- Concrete fixture: the `posts` side of the one-to-many relationship. -/
def fPosts : Field :=
  { field_name := "posts",
    field_description := { field_type := FieldType.list,
                           field_storage := FieldStorage.foreignKey } }

/-- Concrete fixture: a plain (embedded storage) scalar field of `User`. -/
def fName : Field :=
  { field_name := "name",
    field_description := { field_type := FieldType.str,
                           field_storage := FieldStorage.embedded } }

/-- Concrete fixture: a plain (embedded storage) scalar field of `Post`,
so that two `Post`s can be structurally distinguishable. -/
def fTitle : Field :=
  { field_name := "title",
    field_description := { field_type := FieldType.str,
                           field_storage := FieldStorage.embedded } }

/-- Concrete fixture class graph: `User` has a one-to-one `profile`
relationship with `Profile.user` and a one-to-many `posts` relationship
with `Post.author`; `Post` additionally carries a scalar `title`; class
`Empty` declares no fields. -/
def Gex : ClassGraph :=
  { fieldsOf := fun c =>
      if c = "User" then [fProfile, fPosts, fName]
      else if c = "Profile" then [fProfUser]
      else if c = "Post" then [fAuthor, fTitle]
      else [],
    otherField := fun c _ f =>
      if c = "User" ∧ f.field_name = "profile" then some fProfUser
      else if c = "Profile" ∧ f.field_name = "user" then some fProfile
      else if c = "Post" ∧ f.field_name = "author" then some fPosts
      else if c = "User" ∧ f.field_name = "posts" then some fAuthor
      else Option.none }

/-- Concrete fixture heap: object 0 a `User`, object 1 a `Profile` with no
back-link yet, objects 2 and 3 `Post`s with different titles, object 4 an
`Empty` instance carrying a stray attribute `x` with no matching field
descriptor, object 5 a `User` whose fields will coincide with object 0's
after `0.profile = 8`, objects 6 and 7 field-identical `Post`s, object 8
a `Profile` whose `user` back-link already holds object 5, all other ids
`Empty` instances with no attributes. -/
def hU : Heap := fun i =>
  if i = 0 then
    { cls := "User",
      attrs := [("profile", Val.none), ("posts", Val.none), ("name", Val.str "u")] }
  else if i = 1 then { cls := "Profile", attrs := [("user", Val.none)] }
  else if i = 2 then
    { cls := "Post", attrs := [("author", Val.none), ("title", Val.str "t2")] }
  else if i = 3 then
    { cls := "Post", attrs := [("author", Val.none), ("title", Val.str "t3")] }
  else if i = 4 then { cls := "Empty", attrs := [("x", Val.none)] }
  else if i = 5 then
    { cls := "User",
      attrs := [("profile", Val.obj 8), ("posts", Val.none), ("name", Val.str "u")] }
  else if i = 6 then
    { cls := "Post", attrs := [("author", Val.none), ("title", Val.str "same")] }
  else if i = 7 then
    { cls := "Post", attrs := [("author", Val.none), ("title", Val.str "same")] }
  else if i = 8 then { cls := "Profile", attrs := [("user", Val.obj 5)] }
  else { cls := "Empty", attrs := [] }

/-- C1 (amended): for Model Instances `a` (id `oid`) and `b` (id `vid`),
where `a`'s field `name` has LocalKey or ForeignKey storage and the
inverse field resolved on `b` is single-valued (Instance kind):
immediately after `a.name = b`, if the current value of `b`'s inverse
field compared `!= a` (Python dataclass equality, evaluated after the
forward store), the inverse field of `b` holds `a` and `a.name` holds
`b`, with no exception; if it compared equal to `a` — in particular when
it already holds `a` itself — it is not reassigned: the only heap change
is the forward store. -/
theorem setattr_single_valued_inverse_backlink
    (G : ClassGraph) (eqf n : Nat) (h : Heap) (oid vid : Nat) (name : String)
    (sfield ofield : Field)
    (hne : oid ≠ vid)
    (hs : fieldOf G (h.clsOf oid) name = some sfield)
    (hrel : sfield.field_description.field_storage = FieldStorage.localKey ∨
      sfield.field_description.field_storage = FieldStorage.foreignKey)
    (hof : G.otherField (h.clsOf oid) (h.clsOf vid) sfield = some ofield)
    (hty : ofield.field_description.field_type = FieldType.inst)
    (hofFind : fieldOf G (h.clsOf vid) ofield.field_name = some ofield)
    (hback : G.otherField (h.clsOf vid) (h.clsOf oid) ofield = some sfield)
    (hsty : sfield.field_description.field_type = FieldType.inst) :
    (pyEqVal G (h.storeRaw oid name (Val.obj vid)) eqf
        ((h.storeRaw oid name (Val.obj vid)).getattrD vid ofield.field_name)
        (Val.obj oid) = some false →
      (setattrF G eqf (n + 1 + 1) h oid name (Val.obj vid)).2 = Option.none ∧
      (setattrF G eqf (n + 1 + 1) h oid name (Val.obj vid)).1.getattrD vid
        ofield.field_name = Val.obj oid ∧
      (setattrF G eqf (n + 1 + 1) h oid name (Val.obj vid)).1.getattrD oid name =
        Val.obj vid) ∧
    (pyEqVal G (h.storeRaw oid name (Val.obj vid)) eqf
        ((h.storeRaw oid name (Val.obj vid)).getattrD vid ofield.field_name)
        (Val.obj oid) = some true →
      setattrF G eqf (n + 1 + 1) h oid name (Val.obj vid) =
        (h.storeRaw oid name (Val.obj vid), Option.none)) := by
  rw [setattr_inst_run G eqf n h oid vid name sfield ofield hne hs hrel hof hty
    hofFind hback hsty]
  constructor
  · intro hcmp
    rw [hcmp]
    refine ⟨rfl, ?_, ?_⟩
    · exact getattrD_storeRaw_self _ vid ofield.field_name (Val.obj oid)
    · show ((h.storeRaw oid name (Val.obj vid)).storeRaw vid ofield.field_name
        (Val.obj oid)).getattrD oid name = Val.obj vid
      rw [getattrD_storeRaw_ne_obj _ hne]
      exact getattrD_storeRaw_self h oid name (Val.obj vid)
  · intro hcmp
    rw [hcmp]

/-- C1 witness: assigning `Profile` 1 (whose `user` field is `None`, which
compares unequal to any instance) to `User` 0's `profile` field sets
`Profile` 1's `user` field back to `User` 0. -/
theorem setattr_single_valued_inverse_backlink_witness :
    (setattrF Gex 1 (0 + 1 + 1) hU 0 "profile" (Val.obj 1)).2 = Option.none ∧
    (setattrF Gex 1 (0 + 1 + 1) hU 0 "profile" (Val.obj 1)).1.getattrD 1
      fProfUser.field_name = Val.obj 0 ∧
    (setattrF Gex 1 (0 + 1 + 1) hU 0 "profile" (Val.obj 1)).1.getattrD 0
      "profile" = Val.obj 1 :=
  (setattr_single_valued_inverse_backlink Gex 1 0 hU 0 1 "profile" fProfile
    fProfUser (by decide) rfl (Or.inl rfl) rfl rfl rfl rfl rfl).1 rfl

/-- C1 counterexample to the claim as stated: `Profile` 8's `user` field
holds `User` 5, a distinct object whose dataclass fields coincide with
`User` 0's after the forward store, so CPython's `!=` on line 176 answers
`False` and the back-assignment is skipped: after `0.profile = 8` the
inverse field still holds `User` 5, not the assigning instance `User` 0. -/
theorem setattr_single_backlink_counterexample :
    (setattrF Gex 2 2 hU 0 "profile" (Val.obj 8)).2 = Option.none ∧
    (setattrF Gex 2 2 hU 0 "profile" (Val.obj 8)).1.getattrD 8 "user" =
      Val.obj 5 ∧
    Val.obj 5 ≠ Val.obj 0 := by
  refine ⟨rfl, rfl, ?_⟩
  simp

/-- C9: relationship synchronization terminates after at most one nested
assignment: because the assigned value is stored on `a` before the one-hop
back-assignment, the back-assignment's own synchronization finds the
forward link already in place (single-valued inverse) or performs a plain
list wrap/append (multi-valued inverse) and does not recurse further, so
the result of `a.name = b` is the same with any amount of fuel beyond two
nested calls. -/
theorem setattr_one_hop_termination
    (G : ClassGraph) (eqf n : Nat) (h : Heap) (oid vid : Nat) (name : String)
    (sfield ofield : Field)
    (hne : oid ≠ vid)
    (hs : fieldOf G (h.clsOf oid) name = some sfield)
    (hof : G.otherField (h.clsOf oid) (h.clsOf vid) sfield = some ofield)
    (hofFind : fieldOf G (h.clsOf vid) ofield.field_name = some ofield)
    (hback : G.otherField (h.clsOf vid) (h.clsOf oid) ofield = some sfield)
    (hsty : sfield.field_description.field_type = FieldType.inst) :
    setattrF G eqf (n + 1 + 1) h oid name (Val.obj vid) =
      setattrF G eqf (0 + 1 + 1) h oid name (Val.obj vid) := by
  by_cases hrel : sfield.field_description.field_storage = FieldStorage.localKey ∨
      sfield.field_description.field_storage = FieldStorage.foreignKey
  · cases hty : ofield.field_description.field_type with
    | inst =>
      rw [setattr_inst_run G eqf n h oid vid name sfield ofield hne hs hrel hof
        hty hofFind hback hsty]
      rw [setattr_inst_run G eqf 0 h oid vid name sfield ofield hne hs hrel hof
        hty hofFind hback hsty]
    | list =>
      rw [setattr_list_run G eqf n h oid vid name sfield ofield hne hs hrel hof hty]
      rw [setattr_list_run G eqf 0 h oid vid name sfield ofield hne hs hrel hof hty]
    | dict =>
      have ht1 : ¬ ofield.field_description.field_type = FieldType.inst := by
        rw [hty]; decide
      have ht2 : ¬ ofield.field_description.field_type = FieldType.list := by
        rw [hty]; decide
      rw [setattr_other_type_run G eqf (n + 1) h oid vid name sfield ofield hs
          hrel hof ht1 ht2,
        setattr_other_type_run G eqf (0 + 1) h oid vid name sfield ofield hs
          hrel hof ht1 ht2]
    | str =>
      have ht1 : ¬ ofield.field_description.field_type = FieldType.inst := by
        rw [hty]; decide
      have ht2 : ¬ ofield.field_description.field_type = FieldType.list := by
        rw [hty]; decide
      rw [setattr_other_type_run G eqf (n + 1) h oid vid name sfield ofield hs
          hrel hof ht1 ht2,
        setattr_other_type_run G eqf (0 + 1) h oid vid name sfield ofield hs
          hrel hof ht1 ht2]
    | int =>
      have ht1 : ¬ ofield.field_description.field_type = FieldType.inst := by
        rw [hty]; decide
      have ht2 : ¬ ofield.field_description.field_type = FieldType.list := by
        rw [hty]; decide
      rw [setattr_other_type_run G eqf (n + 1) h oid vid name sfield ofield hs
          hrel hof ht1 ht2,
        setattr_other_type_run G eqf (0 + 1) h oid vid name sfield ofield hs
          hrel hof ht1 ht2]
  · rw [setattr_plain_storage_run G eqf (n + 1) h oid vid name sfield hs hrel,
      setattr_plain_storage_run G eqf (0 + 1) h oid vid name sfield hs hrel]

/-- C9 witness: in the concrete fixture, `User 0 . profile = Profile 1`
run with five units of synchronization fuel equals the run with two. -/
theorem setattr_one_hop_termination_witness :
    setattrF Gex 1 (3 + 1 + 1) hU 0 "profile" (Val.obj 1) =
      setattrF Gex 1 (0 + 1 + 1) hU 0 "profile" (Val.obj 1) :=
  setattr_one_hop_termination Gex 1 3 hU 0 1 "profile" fProfile fProfUser
    (by decide) rfl rfl rfl rfl rfl

/-- C2 (amended): for Model Instances `a` (id `oid`) and `b` (id `vid`),
where `a`'s field `name` has LocalKey or ForeignKey storage and the
inverse field resolved on `b` is multi-valued (List kind): if `b`'s
inverse attribute does not currently hold a list, `a.name = b` replaces
it with a new one-element owned list containing `a`; if it holds a list,
`a` is appended at the end exactly when no existing member compares `==`
to `a` (Python dataclass equality, evaluated after the forward store) —
a member equal to `a` makes the hook skip the append, leaving the list
unchanged; after an append, `a` itself is a member; and a subsequent
`a2.name = b` with a distinct `a2` of the same class that compares
unequal to `a` leaves the inverse list equal to `[a, a2]` in that order. -/
theorem setattr_multi_valued_inverse_membership
    (G : ClassGraph) (eqf n m : Nat) (h : Heap) (oid vid : Nat) (name : String)
    (sfield ofield : Field)
    (hne : oid ≠ vid)
    (hs : fieldOf G (h.clsOf oid) name = some sfield)
    (hrel : sfield.field_description.field_storage = FieldStorage.localKey ∨
      sfield.field_description.field_storage = FieldStorage.foreignKey)
    (hof : G.otherField (h.clsOf oid) (h.clsOf vid) sfield = some ofield)
    (htyl : ofield.field_description.field_type = FieldType.list) :
    (isListVal (h.getattrD vid ofield.field_name) = false →
      (setattrF G eqf (n + 1 + 1) h oid name (Val.obj vid)).2 = Option.none ∧
      (setattrF G eqf (n + 1 + 1) h oid name (Val.obj vid)).1.getattrD vid
        ofield.field_name = Val.olist vid ofield.field_name [Val.obj oid]) ∧
    (∀ ow kp xs, h.getattrD vid ofield.field_name = Val.olist ow kp xs →
      (optAny (fun x => pyEqVal G (h.storeRaw oid name (Val.obj vid)) eqf x
          (Val.obj oid)) xs = some false →
        (setattrF G eqf (n + 1 + 1) h oid name (Val.obj vid)).2 = Option.none ∧
        (setattrF G eqf (n + 1 + 1) h oid name (Val.obj vid)).1.getattrD vid
          ofield.field_name = Val.olist ow kp (xs ++ [Val.obj oid]) ∧
        Val.obj oid ∈ listElems ((setattrF G eqf (n + 1 + 1) h oid name
          (Val.obj vid)).1.getattrD vid ofield.field_name)) ∧
      (optAny (fun x => pyEqVal G (h.storeRaw oid name (Val.obj vid)) eqf x
          (Val.obj oid)) xs = some true →
        setattrF G eqf (n + 1 + 1) h oid name (Val.obj vid) =
          (h.storeRaw oid name (Val.obj vid), Option.none))) ∧
    (∀ oid2, oid2 ≠ oid → oid2 ≠ vid → h.clsOf oid2 = h.clsOf oid →
      isListVal (h.getattrD vid ofield.field_name) = false →
      pyEqVal G
        (((h.storeRaw oid name (Val.obj vid)).storeRaw vid ofield.field_name
          (Val.olist vid ofield.field_name [Val.obj oid])).storeRaw oid2 name
          (Val.obj vid)) eqf (Val.obj oid) (Val.obj oid2) = some false →
      (setattrF G eqf (m + 1 + 1) (setattrF G eqf (n + 1 + 1) h oid name
        (Val.obj vid)).1 oid2 name (Val.obj vid)).1.getattrD vid
        ofield.field_name =
        Val.olist vid ofield.field_name [Val.obj oid, Val.obj oid2]) := by
  refine ⟨?_, ?_, ?_⟩
  · intro hnl
    have hrun := setattr_list_run G eqf n h oid vid name sfield ofield hne hs
      hrel hof htyl
    rw [hnl] at hrun
    simp only [Bool.false_eq_true, reduceIte] at hrun
    rw [hrun]
    exact ⟨rfl, getattrD_storeRaw_self _ vid ofield.field_name _⟩
  · intro ow kp xs hvx
    have hrun := setattr_list_run G eqf n h oid vid name sfield ofield hne hs
      hrel hof htyl
    rw [hvx] at hrun
    simp only [isListVal_olist, listElems_olist, reduceIte] at hrun
    constructor
    · intro hopt
      rw [hopt] at hrun
      rw [hrun]
      refine ⟨rfl, ?_, ?_⟩
      · rw [getattrD_storeRaw_self]
        simp [appendElem]
      · rw [getattrD_storeRaw_self]
        simp [appendElem]
    · intro hopt
      rw [hopt] at hrun
      exact hrun
  · intro oid2 h2o h2v hcls hnl hcmp2
    have hrun := setattr_list_run G eqf n h oid vid name sfield ofield hne hs
      hrel hof htyl
    rw [hnl] at hrun
    simp only [Bool.false_eq_true, reduceIte] at hrun
    rw [hrun]
    have hs2 : fieldOf G
        (((h.storeRaw oid name (Val.obj vid)).storeRaw vid ofield.field_name
          (Val.olist vid ofield.field_name [Val.obj oid])).clsOf oid2) name =
        some sfield := by
      simp only [clsOf_storeRaw]
      rw [hcls]
      exact hs
    have hof2 : G.otherField
        (((h.storeRaw oid name (Val.obj vid)).storeRaw vid ofield.field_name
          (Val.olist vid ofield.field_name [Val.obj oid])).clsOf oid2)
        (((h.storeRaw oid name (Val.obj vid)).storeRaw vid ofield.field_name
          (Val.olist vid ofield.field_name [Val.obj oid])).clsOf vid) sfield =
        some ofield := by
      simp only [clsOf_storeRaw]
      rw [hcls]
      exact hof
    have hrun2 := setattr_list_run G eqf m
      ((h.storeRaw oid name (Val.obj vid)).storeRaw vid ofield.field_name
        (Val.olist vid ofield.field_name [Val.obj oid]))
      oid2 vid name sfield ofield h2v hs2 hrel hof2 htyl
    rw [getattrD_storeRaw_self] at hrun2
    have hopt : optAny (fun x => pyEqVal G
        (((h.storeRaw oid name (Val.obj vid)).storeRaw vid ofield.field_name
          (Val.olist vid ofield.field_name [Val.obj oid])).storeRaw oid2 name
          (Val.obj vid)) eqf x (Val.obj oid2)) [Val.obj oid] = some false := by
      simp [optAny, hcmp2]
    simp only [isListVal_olist, listElems_olist, hopt, reduceIte] at hrun2
    rw [hrun2]
    rw [getattrD_storeRaw_self]
    simp [appendElem]

/-- C2 witness: assigning `User` 0 to `Post` 2's `author` field makes
`User` 0's `posts` list `[Post 2]`; a further `Post 3 . author = User 0`
— the two posts have different titles, so they compare unequal — yields
`[Post 2, Post 3]` in that order. -/
theorem setattr_multi_valued_inverse_membership_witness :
    ((setattrF Gex 2 (0 + 1 + 1) hU 2 "author" (Val.obj 0)).2 = Option.none ∧
      (setattrF Gex 2 (0 + 1 + 1) hU 2 "author" (Val.obj 0)).1.getattrD 0
        fPosts.field_name = Val.olist 0 fPosts.field_name [Val.obj 2]) ∧
    (setattrF Gex 2 (0 + 1 + 1) (setattrF Gex 2 (0 + 1 + 1) hU 2 "author"
        (Val.obj 0)).1 3 "author" (Val.obj 0)).1.getattrD 0 fPosts.field_name =
      Val.olist 0 fPosts.field_name [Val.obj 2, Val.obj 3] :=
  ⟨(setattr_multi_valued_inverse_membership Gex 2 0 0 hU 2 0 "author" fAuthor
      fPosts (by decide) rfl (Or.inl rfl) rfl rfl).1 rfl,
   (setattr_multi_valued_inverse_membership Gex 2 0 0 hU 2 0 "author" fAuthor
      fPosts (by decide) rfl (Or.inl rfl) rfl rfl).2.2 3 (by decide) (by decide)
      rfl rfl rfl⟩

/-- C2 counterexample to the claim as stated: `Post` 6 and `Post` 7 are
distinct objects with identical field values.  After `6.author = 0` the
inverse list is `[Post 6]`; the subsequent `7.author = 0` first stores
`author` on `Post` 7, making it compare `==` to `Post` 6, so CPython's
`in` on line 183 finds it and the append is skipped: the inverse list
stays `[Post 6]`, not `[Post 6, Post 7]`. -/
theorem setattr_multi_inverse_counterexample :
    (setattrF Gex 2 2 (setattrF Gex 2 2 hU 6 "author" (Val.obj 0)).1 7 "author"
      (Val.obj 0)).2 = Option.none ∧
    (setattrF Gex 2 2 (setattrF Gex 2 2 hU 6 "author" (Val.obj 0)).1 7 "author"
      (Val.obj 0)).1.getattrD 0 "posts" = Val.olist 0 "posts" [Val.obj 6] ∧
    Val.olist 0 "posts" [Val.obj 6] ≠
      Val.olist 0 "posts" [Val.obj 6, Val.obj 7] := by
  refine ⟨rfl, rfl, ?_⟩
  simp

/-- C3: relationship synchronization is idempotent for multi-valued (List
kind) inverse fields: starting from the fresh state in which `b`'s
inverse attribute is not yet a list, performing `a.name = b` twice in a
row raises no exception and leaves `b`'s inverse-side collection
containing `a` exactly once — the second assignment's membership test
finds `a` (an object is always `==` to itself) and appends no duplicate
back-link. -/
theorem setattr_sync_idempotent
    (G : ClassGraph) (eqf n m : Nat) (h : Heap) (oid vid : Nat) (name : String)
    (sfield ofield : Field)
    (hef : 0 < eqf)
    (hne : oid ≠ vid)
    (hs : fieldOf G (h.clsOf oid) name = some sfield)
    (hrel : sfield.field_description.field_storage = FieldStorage.localKey ∨
      sfield.field_description.field_storage = FieldStorage.foreignKey)
    (hof : G.otherField (h.clsOf oid) (h.clsOf vid) sfield = some ofield)
    (htyl : ofield.field_description.field_type = FieldType.list)
    (hnl : isListVal (h.getattrD vid ofield.field_name) = false) :
    (setattrF G eqf (n + 1 + 1) h oid name (Val.obj vid)).2 = Option.none ∧
    (setattrF G eqf (m + 1 + 1) (setattrF G eqf (n + 1 + 1) h oid name
      (Val.obj vid)).1 oid name (Val.obj vid)).2 = Option.none ∧
    occCount ((setattrF G eqf (m + 1 + 1) (setattrF G eqf (n + 1 + 1) h oid name
      (Val.obj vid)).1 oid name (Val.obj vid)).1.getattrD vid ofield.field_name)
      oid = 1 := by
  have hrun := setattr_list_run G eqf n h oid vid name sfield ofield hne hs
    hrel hof htyl
  rw [hnl] at hrun
  simp only [Bool.false_eq_true, reduceIte] at hrun
  rw [hrun]
  have hs2 : fieldOf G
      (((h.storeRaw oid name (Val.obj vid)).storeRaw vid ofield.field_name
        (Val.olist vid ofield.field_name [Val.obj oid])).clsOf oid) name =
      some sfield := by
    simp only [clsOf_storeRaw]
    exact hs
  have hof2 : G.otherField
      (((h.storeRaw oid name (Val.obj vid)).storeRaw vid ofield.field_name
        (Val.olist vid ofield.field_name [Val.obj oid])).clsOf oid)
      (((h.storeRaw oid name (Val.obj vid)).storeRaw vid ofield.field_name
        (Val.olist vid ofield.field_name [Val.obj oid])).clsOf vid) sfield =
      some ofield := by
    simp only [clsOf_storeRaw]
    exact hof
  have hrun2 := setattr_list_run G eqf m
    ((h.storeRaw oid name (Val.obj vid)).storeRaw vid ofield.field_name
      (Val.olist vid ofield.field_name [Val.obj oid]))
    oid vid name sfield ofield hne hs2 hrel hof2 htyl
  rw [getattrD_storeRaw_self] at hrun2
  have hself := pyEqVal_obj_self G
    ((((h.storeRaw oid name (Val.obj vid)).storeRaw vid ofield.field_name
      (Val.olist vid ofield.field_name [Val.obj oid])).storeRaw oid name
      (Val.obj vid))) hef oid
  have hopt : optAny (fun x => pyEqVal G
      (((h.storeRaw oid name (Val.obj vid)).storeRaw vid ofield.field_name
        (Val.olist vid ofield.field_name [Val.obj oid])).storeRaw oid name
        (Val.obj vid)) eqf x (Val.obj oid)) [Val.obj oid] = some true := by
    simp [optAny, hself]
  simp only [isListVal_olist, listElems_olist, hopt, reduceIte] at hrun2
  rw [hrun2]
  refine ⟨rfl, rfl, ?_⟩
  rw [getattrD_storeRaw_ne_obj _ (Ne.symm hne), getattrD_storeRaw_self]
  simp [occCount, isRefTo]

/-- C3 witness: assigning `User` 0 to `Post` 2's `author` field twice in a
row leaves `User` 0's `posts` list containing `Post` 2 exactly once. -/
theorem setattr_sync_idempotent_witness :
    (setattrF Gex 1 (0 + 1 + 1) hU 2 "author" (Val.obj 0)).2 = Option.none ∧
    (setattrF Gex 1 (0 + 1 + 1) (setattrF Gex 1 (0 + 1 + 1) hU 2 "author"
      (Val.obj 0)).1 2 "author" (Val.obj 0)).2 = Option.none ∧
    occCount ((setattrF Gex 1 (0 + 1 + 1) (setattrF Gex 1 (0 + 1 + 1) hU 2
      "author" (Val.obj 0)).1 2 "author" (Val.obj 0)).1.getattrD 0
      fPosts.field_name) 2 = 1 :=
  setattr_sync_idempotent Gex 1 0 0 hU 2 0 "author" fAuthor fPosts (by decide)
    (by decide) rfl (Or.inl rfl) rfl rfl rfl

theorem isListVal_of_isDictVal {v : Val} (hv : isDictVal v = true) :
    isListVal v = false := by
  cases v <;> simp_all [isListVal, isDictVal]

/-- C4: for every attribute assignment on a Model Instance: a list value
is stored as an Owned Collection (list variant) whose `owner` is the
assigned-to instance and whose `keypath` is the attribute name, not the
raw list; symmetrically a dict value is stored as the mapping-variant
wrapper with the same owner and keypath; a value that is neither a list
nor a dict nor a Model Instance is stored as given; and a Model Instance
value on a paired single-valued relationship field is likewise stored as
given (unwrapped) while the hook synchronizes the other side. -/
theorem setattr_wraps_collections :
    (∀ (G : ClassGraph) (eqf n : Nat) (h : Heap) (oid : Nat) (name : String)
      (v : Val), isListVal v = true →
      setattrF G eqf (n + 1) h oid name v =
        (h.storeRaw oid name (Val.olist oid name (listElems v)), Option.none)) ∧
    (∀ (G : ClassGraph) (eqf n : Nat) (h : Heap) (oid : Nat) (name : String)
      (v : Val), isDictVal v = true →
      setattrF G eqf (n + 1) h oid name v =
        (h.storeRaw oid name (Val.odict oid name (dictEntries v)), Option.none)) ∧
    (∀ (G : ClassGraph) (eqf n : Nat) (h : Heap) (oid : Nat) (name : String)
      (v : Val), isListVal v = false → isDictVal v = false → isObjVal v = false →
      setattrF G eqf (n + 1) h oid name v = (h.storeRaw oid name v, Option.none)) ∧
    (∀ (G : ClassGraph) (eqf n : Nat) (h : Heap) (oid vid : Nat) (name : String)
      (sfield ofield : Field), oid ≠ vid →
      fieldOf G (h.clsOf oid) name = some sfield →
      (sfield.field_description.field_storage = FieldStorage.localKey ∨
        sfield.field_description.field_storage = FieldStorage.foreignKey) →
      G.otherField (h.clsOf oid) (h.clsOf vid) sfield = some ofield →
      ofield.field_description.field_type = FieldType.inst →
      fieldOf G (h.clsOf vid) ofield.field_name = some ofield →
      G.otherField (h.clsOf vid) (h.clsOf oid) ofield = some sfield →
      sfield.field_description.field_type = FieldType.inst →
      (setattrF G eqf (n + 1 + 1) h oid name (Val.obj vid)).1.getattrD oid name =
        Val.obj vid) := by
  refine ⟨?_, ?_, ?_, ?_⟩
  · intro G eqf n h oid name v hv
    simp only [setattrF, hv, reduceIte]
  · intro G eqf n h oid name v hv
    have hl := isListVal_of_isDictVal hv
    simp only [setattrF, hl, hv, Bool.false_eq_true, reduceIte]
  · intro G eqf n h oid name v h1 h2 h3
    cases v <;> simp_all [setattrF, isListVal, isDictVal, isObjVal]
  · intro G eqf n h oid vid name sfield ofield hne hs hrel hof hty hofFind
      hback hsty
    rw [setattr_inst_run G eqf n h oid vid name sfield ofield hne hs hrel hof
      hty hofFind hback hsty]
    rcases hcmp : pyEqVal G (h.storeRaw oid name (Val.obj vid)) eqf
        ((h.storeRaw oid name (Val.obj vid)).getattrD vid ofield.field_name)
        (Val.obj oid) with _ | b
    · show (h.storeRaw oid name (Val.obj vid)).getattrD oid name = Val.obj vid
      exact getattrD_storeRaw_self h oid name (Val.obj vid)
    · cases b
      · show ((h.storeRaw oid name (Val.obj vid)).storeRaw vid ofield.field_name
          (Val.obj oid)).getattrD oid name = Val.obj vid
        rw [getattrD_storeRaw_ne_obj _ hne]
        exact getattrD_storeRaw_self h oid name (Val.obj vid)
      · show (h.storeRaw oid name (Val.obj vid)).getattrD oid name = Val.obj vid
        exact getattrD_storeRaw_self h oid name (Val.obj vid)

/-- C4 witness: a raw list assigned to `User` 0's `name` is stored wrapped
with owner 0 and keypath `name`; a raw dict likewise; a string is stored
as given; and `Profile` 1 assigned to `profile` is stored unwrapped. -/
theorem setattr_wraps_collections_witness :
    setattrF Gex 1 (0 + 1) hU 0 "name" (Val.vlist [Val.int 1]) =
      (hU.storeRaw 0 "name" (Val.olist 0 "name" [Val.int 1]), Option.none) ∧
    setattrF Gex 1 (0 + 1) hU 0 "name" (Val.vdict [("a", Val.int 2)]) =
      (hU.storeRaw 0 "name" (Val.odict 0 "name" [("a", Val.int 2)]), Option.none) ∧
    setattrF Gex 1 (0 + 1) hU 0 "name" (Val.str "s") =
      (hU.storeRaw 0 "name" (Val.str "s"), Option.none) ∧
    (setattrF Gex 1 (0 + 1 + 1) hU 0 "profile" (Val.obj 1)).1.getattrD 0
      "profile" = Val.obj 1 :=
  ⟨setattr_wraps_collections.1 Gex 1 0 hU 0 "name" (Val.vlist [Val.int 1]) rfl,
   setattr_wraps_collections.2.1 Gex 1 0 hU 0 "name"
     (Val.vdict [("a", Val.int 2)]) rfl,
   setattr_wraps_collections.2.2.1 Gex 1 0 hU 0 "name" (Val.str "s") rfl rfl rfl,
   setattr_wraps_collections.2.2.2 Gex 1 0 hU 0 1 "profile" fProfile fProfUser
     (by decide) rfl (Or.inl rfl) rfl rfl rfl rfl rfl⟩

/-- C5 (amended): `update` fails with the key-mismatch error whenever the
mapping contains at least one key that is not an existing attribute of the
instance, the error payload lists every offending key, and in that failing
case no field is mutated (all keys are validated before any assignment);
when every key is an existing attribute and no assignment raises from the
interception hook, every key is assigned and `update` returns `self`. -/
theorem update_key_mismatch_spec :
    (∀ (G : ClassGraph) (eqf fuel : Nat) (h : Heap) (oid : Nat)
      (kwargs : List (String × Val)),
      (∃ k, k ∈ kwargs.map Prod.fst ∧
        ((h oid).attrs.map Prod.fst).contains k = false) →
      (updateF G eqf fuel h oid kwargs).1 = h ∧
      ∃ L, (updateF G eqf fuel h oid kwargs).2 =
          Except.error (UErr.keyMismatch L) ∧
        ∀ k, k ∈ L ↔ (k ∈ kwargs.map Prod.fst ∧
          ((h oid).attrs.map Prod.fst).contains k = false)) ∧
    (∀ (G : ClassGraph) (eqf fuel : Nat) (h : Heap) (oid : Nat)
      (kwargs : List (String × Val)),
      (∀ k ∈ kwargs.map Prod.fst, ((h oid).attrs.map Prod.fst).contains k = true) →
      (runAssignments G eqf fuel h oid kwargs).2 = Option.none →
      updateF G eqf fuel h oid kwargs =
        ((runAssignments G eqf fuel h oid kwargs).1, Except.ok oid)) := by
  constructor
  · intro G eqf fuel h oid kwargs hex
    obtain ⟨k0, hk0, hnc⟩ := hex
    have hmem : k0 ∈ (kwargs.map Prod.fst).filter
        (fun k => !(((h oid).attrs.map Prod.fst).contains k)) := by
      rw [List.mem_filter]
      exact ⟨hk0, by rw [hnc]; rfl⟩
    have hpos : 0 < ((kwargs.map Prod.fst).filter
        (fun k => !(((h oid).attrs.map Prod.fst).contains k))).length :=
      List.length_pos.mpr (List.ne_nil_of_mem hmem)
    simp only [updateF]
    rw [if_pos hpos]
    refine ⟨rfl, _, rfl, ?_⟩
    intro k
    simp [List.mem_filter]
  · intro G eqf fuel h oid kwargs hall hnone
    have hfil : (kwargs.map Prod.fst).filter
        (fun k => !(((h oid).attrs.map Prod.fst).contains k)) = [] := by
      rw [List.filter_eq_nil_iff]
      intro k hk
      rw [hall k hk]
      simp
    have hlen : ¬ 0 < ((kwargs.map Prod.fst).filter
        (fun k => !(((h oid).attrs.map Prod.fst).contains k))).length := by
      rw [hfil]
      simp
    rcases hra : runAssignments G eqf fuel h oid kwargs with ⟨h', e⟩
    rw [hra] at hnone
    have he : e = Option.none := hnone
    subst he
    simp only [updateF]
    rw [if_neg hlen, hra]

/-- C5 counterexample to the claim as stated: the `Empty` instance 4 has
the instance attribute `x` (so every key of the input is an existing
attribute), yet `update({x: User 0})` does not return `self`: the
assignment raises StopIteration out of `update` because the class declares
no field descriptor for `x`. -/
theorem update_counterexample :
    (∀ k ∈ ([("x", Val.obj 0)] : List (String × Val)).map Prod.fst,
      ((hU 4).attrs.map Prod.fst).contains k = true) ∧
    (updateF Gex 1 1 hU 4 [("x", Val.obj 0)]).2 =
      Except.error (UErr.py PyErr.stopIteration) := by
  constructor
  · intro k hk
    simp only [List.map_cons, List.map_nil, List.mem_singleton] at hk
    subst hk
    rfl
  · rfl

/-- C5 witness: an unknown key `zzz` makes `update` on `User` 0 fail with
the error listing exactly the offending keys and leaves the heap
untouched; updating the existing key `name` assigns it and returns self. -/
theorem update_key_mismatch_spec_witness :
    ((updateF Gex 1 1 hU 0 [("zzz", Val.int 1)]).1 = hU ∧
      ∃ L, (updateF Gex 1 1 hU 0 [("zzz", Val.int 1)]).2 =
          Except.error (UErr.keyMismatch L) ∧
        ∀ k, k ∈ L ↔ (k ∈ ([("zzz", Val.int 1)] : List (String × Val)).map
          Prod.fst ∧ ((hU 0).attrs.map Prod.fst).contains k = false)) ∧
    updateF Gex 1 1 hU 0 [("name", Val.int 3)] =
      ((runAssignments Gex 1 1 hU 0 [("name", Val.int 3)]).1, Except.ok 0) :=
  ⟨update_key_mismatch_spec.1 Gex 1 1 hU 0 [("zzz", Val.int 1)]
      ⟨"zzz", by simp, rfl⟩,
   update_key_mismatch_spec.2 Gex 1 1 hU 0 [("name", Val.int 3)]
     (by intro k hk; simp at hk; subst hk; rfl) rfl⟩

/-- C8: although `update` bypasses the transform pipeline, every value it
assigns passes through the attribute-interception hook: a list value given
to `update` is stored wrapped as an owned list with owner and keypath set;
a dict value as an owned dict; and a Model Instance value assigned to a
LocalKey/ForeignKey field triggers relationship synchronization on the
other side (here: a fresh multi-valued inverse list receives the assigning
instance). -/
theorem update_routes_through_hook :
    (∀ (G : ClassGraph) (eqf fuel : Nat) (h : Heap) (oid : Nat) (k : String)
      (xs : List Val), ((h oid).attrs.map Prod.fst).contains k = true →
      updateF G eqf (fuel + 1) h oid [(k, Val.vlist xs)] =
        (h.storeRaw oid k (Val.olist oid k xs), Except.ok oid)) ∧
    (∀ (G : ClassGraph) (eqf fuel : Nat) (h : Heap) (oid : Nat) (k : String)
      (es : List (String × Val)),
      ((h oid).attrs.map Prod.fst).contains k = true →
      updateF G eqf (fuel + 1) h oid [(k, Val.vdict es)] =
        (h.storeRaw oid k (Val.odict oid k es), Except.ok oid)) ∧
    (∀ (G : ClassGraph) (eqf n : Nat) (h : Heap) (oid vid : Nat) (name : String)
      (sfield ofield : Field),
      ((h oid).attrs.map Prod.fst).contains name = true →
      oid ≠ vid →
      fieldOf G (h.clsOf oid) name = some sfield →
      (sfield.field_description.field_storage = FieldStorage.localKey ∨
        sfield.field_description.field_storage = FieldStorage.foreignKey) →
      G.otherField (h.clsOf oid) (h.clsOf vid) sfield = some ofield →
      ofield.field_description.field_type = FieldType.list →
      isListVal (h.getattrD vid ofield.field_name) = false →
      updateF G eqf (n + 1 + 1) h oid [(name, Val.obj vid)] =
        ((h.storeRaw oid name (Val.obj vid)).storeRaw vid ofield.field_name
          (Val.olist vid ofield.field_name [Val.obj oid]), Except.ok oid)) := by
  refine ⟨?_, ?_, ?_⟩
  · intro G eqf fuel h oid k xs hk
    have hw : setattrF G eqf (fuel + 1) h oid k (Val.vlist xs) =
        (h.storeRaw oid k (Val.olist oid k xs), Option.none) := by
      simp only [setattrF, isListVal_vlist, reduceIte, listElems_vlist]
    have hlen : ¬ 0 < ((([(k, Val.vlist xs)] : List (String × Val)).map
        Prod.fst).filter
        (fun k' => !(((h oid).attrs.map Prod.fst).contains k'))).length := by
      simp [hk]
      simpa using hk
    simp only [updateF]
    rw [if_neg hlen]
    simp only [runAssignments, hw]
  · intro G eqf fuel h oid k es hk
    have hw : setattrF G eqf (fuel + 1) h oid k (Val.vdict es) =
        (h.storeRaw oid k (Val.odict oid k es), Option.none) := by
      simp only [setattrF, isListVal_vdict, isDictVal_vdict, Bool.false_eq_true,
        reduceIte, dictEntries_vdict]
    have hlen : ¬ 0 < ((([(k, Val.vdict es)] : List (String × Val)).map
        Prod.fst).filter
        (fun k' => !(((h oid).attrs.map Prod.fst).contains k'))).length := by
      simp [hk]
      simpa using hk
    simp only [updateF]
    rw [if_neg hlen]
    simp only [runAssignments, hw]
  · intro G eqf n h oid vid name sfield ofield hk hne hs hrel hof htyl hnl
    have hrun := setattr_list_run G eqf n h oid vid name sfield ofield hne hs
      hrel hof htyl
    rw [hnl] at hrun
    simp only [Bool.false_eq_true, reduceIte] at hrun
    have hlen : ¬ 0 < ((([(name, Val.obj vid)] : List (String × Val)).map
        Prod.fst).filter
        (fun k' => !(((h oid).attrs.map Prod.fst).contains k'))).length := by
      simp [hk]
      simpa using hk
    simp only [updateF]
    rw [if_neg hlen]
    simp only [runAssignments, hrun]

/-- C8 witness: `update` with a raw list under `User` 0's existing key
`name` stores the owned wrapper; `update({author: User 0})` on `Post` 2
sets `User` 0's `posts` back-link list. -/
theorem update_routes_through_hook_witness :
    updateF Gex 1 (0 + 1) hU 0 [("name", Val.vlist [Val.int 1])] =
      (hU.storeRaw 0 "name" (Val.olist 0 "name" [Val.int 1]), Except.ok 0) ∧
    updateF Gex 1 (0 + 1) hU 0 [("name", Val.vdict [("a", Val.int 2)])] =
      (hU.storeRaw 0 "name" (Val.odict 0 "name" [("a", Val.int 2)]),
        Except.ok 0) ∧
    updateF Gex 1 (0 + 1 + 1) hU 2 [("author", Val.obj 0)] =
      ((hU.storeRaw 2 "author" (Val.obj 0)).storeRaw 0 fPosts.field_name
        (Val.olist 0 fPosts.field_name [Val.obj 2]), Except.ok 2) :=
  ⟨update_routes_through_hook.1 Gex 1 0 hU 0 "name" [Val.int 1] rfl,
   update_routes_through_hook.2.1 Gex 1 0 hU 0 "name" [("a", Val.int 2)] rfl,
   update_routes_through_hook.2.2 Gex 1 0 hU 2 0 "author" fAuthor fPosts rfl
     (by decide) rfl (Or.inl rfl) rfl rfl rfl⟩

/-- C6: every top-level public operation among construct (`__init__`),
`set`, `validate` and `tojson` creates exactly one fresh Lookup Map at the
start of the call: each call allocates exactly the allocator's next
identity and advances the counter by one, so a subsequent call can never
share or reuse the map of a previous one (shown for a `set` followed by a
`to_json`); the map is not part of the returned value, hence discarded on
return. -/
theorem fresh_lookup_map_per_operation :
    (∀ (G : ClassGraph) (E : TransformingContext → Heap → Heap) (cfg : Config)
      (ns : List String) (h : Heap) (oid : Nat) (kw : List (String × Val))
      (σ : Nat),
      (jsonclassInit G E cfg ns h oid kw σ).2 = [σ] ∧
      (jsonclassInit G E cfg ns h oid kw σ).1.2 = σ + 1) ∧
    (∀ (E : TransformingContext → Heap → Heap) (cfg : Config) (h : Heap)
      (oid : Nat) (kw : List (String × Val)) (σ : Nat),
      (jsonclassSet E cfg h oid kw σ).2 = [σ] ∧
      (jsonclassSet E cfg h oid kw σ).1.2 = σ + 1) ∧
    (∀ (V : ValidatingContext → Heap → Option ValidationException) (cfg : Config)
      (h : Heap) (oid : Nat) (af : Option Bool) (σ : Nat),
      (jsonclassValidate V cfg h oid af σ).2 = [σ] ∧
      (jsonclassValidate V cfg h oid af σ).1.2 = σ + 1) ∧
    (∀ (S : ToJSONContext → Heap → List (String × Val)) (cfg : Config)
      (h : Heap) (oid : Nat) (iw : Bool) (σ : Nat),
      (jsonclassTojson S cfg h oid iw σ).2 = [σ] ∧
      (jsonclassTojson S cfg h oid iw σ).1.2 = σ + 1) ∧
    (∀ (E : TransformingContext → Heap → Heap)
      (S : ToJSONContext → Heap → List (String × Val)) (cfg : Config)
      (h : Heap) (oid : Nat) (kw : List (String × Val)) (iw : Bool)
      (σ x y : Nat),
      x ∈ (jsonclassSet E cfg h oid kw σ).2 →
      y ∈ (jsonclassTojson S cfg h oid iw
        ((jsonclassSet E cfg h oid kw σ).1.2)).2 →
      x ≠ y) := by
  refine ⟨?_, ?_, ?_, ?_, ?_⟩
  · intro G E cfg ns h oid kw σ
    exact ⟨rfl, rfl⟩
  · intro E cfg h oid kw σ
    exact ⟨rfl, rfl⟩
  · intro V cfg h oid af σ
    unfold jsonclassValidate
    simp only [newLookupMap]
    constructor <;> (split <;> rfl)
  · intro S cfg h oid iw σ
    exact ⟨rfl, rfl⟩
  · intro E S cfg h oid kw iw σ x y hx hy
    simp [jsonclassSet, privateSet, jsonclassTojson, newLookupMap] at hx hy
    omega

/-- C6 witness: a concrete `set` starting at allocation counter 0 creates
exactly the lookup map 0; a `to_json` right after it creates exactly the
lookup map 1; the two are distinct. -/
theorem fresh_lookup_map_per_operation_witness :
    (jsonclassSet (fun _ hh => hh) ⟨"default", true, true⟩ hU 0 [] 0).2 = [0] ∧
    (jsonclassTojson (fun _ _ => []) ⟨"default", true, true⟩ hU 0 false 7).2 =
      [7] ∧
    (0 : Nat) ≠ 1 :=
  ⟨(fresh_lookup_map_per_operation.2.1 (fun _ hh => hh)
      ⟨"default", true, true⟩ hU 0 [] 0).1,
   (fresh_lookup_map_per_operation.2.2.2.1 (fun _ _ => [])
      ⟨"default", true, true⟩ hU 0 false 7).1,
   fresh_lookup_map_per_operation.2.2.2.2 (fun _ hh => hh) (fun _ _ => [])
     ⟨"default", true, true⟩ hU 0 [] false 0 0 1 (by decide) (by decide)⟩

/-- C7: `is_valid` calls `validate(all_fields=False)` and returns `false`
exactly when that call reports a raised validation failure, `true` exactly
when it succeeds; its total `Bool` result type embeds that the validation
exception never escapes to the caller. -/
theorem is_valid_catches_validation_error
    (V : ValidatingContext → Heap → Option ValidationException) (cfg : Config)
    (h : Heap) (oid : Nat) (σ : Nat) :
    ((jsonclassIsValid V cfg h oid σ).1 = false ↔
      ∃ e, (jsonclassValidate V cfg h oid (some false) σ).1.1 =
        Except.error e) ∧
    ((jsonclassIsValid V cfg h oid σ).1 = true ↔
      ∃ a, (jsonclassValidate V cfg h oid (some false) σ).1.1 =
        Except.ok a) := by
  unfold jsonclassIsValid
  rcases hv : jsonclassValidate V cfg h oid (some false) σ with ⟨⟨r, σ1⟩, allocs⟩
  cases r <;> simp

/-- C10 (amended): assigning a Model Instance value under an attribute
name that matches no declared field descriptor of the assigning class
raises an unhandled StopIteration from the field lookup inside the
interception hook — after the value has already been stored on the
instance, since the store (line 166) precedes the lookup (line 169). -/
theorem setattr_unknown_field_raises
    (G : ClassGraph) (eqf n : Nat) (h : Heap) (oid : Nat) (name : String)
    (vid : Nat)
    (hnone : fieldOf G (h.clsOf oid) name = Option.none) :
    setattrF G eqf (n + 1) h oid name (Val.obj vid) =
      (h.storeRaw oid name (Val.obj vid), some PyErr.stopIteration) := by
  simp only [setattrF, isListVal_obj, isDictVal_obj, Bool.false_eq_true,
    reduceIte, clsOf_storeRaw, hnone]

/-- C10 witness: storing `User` 0 into the undeclared attribute `rel` of
the `Empty` instance 4 stores the value and raises StopIteration. -/
theorem setattr_unknown_field_raises_witness :
    setattrF Gex 1 (0 + 1) hU 4 "rel" (Val.obj 0) =
      (hU.storeRaw 4 "rel" (Val.obj 0), some PyErr.stopIteration) :=
  setattr_unknown_field_raises Gex 1 0 hU 4 "rel" 0 rfl

/-- C10 counterexample to the claim as stated: the assignment does fail
with an unhandled StopIteration, but not "rather than storing the value" —
at this concrete input the value has been stored on the instance when the
exception is raised. -/
theorem setattr_unknown_field_stores_value :
    (setattrF Gex 1 1 hU 4 "rel" (Val.obj 0)).2 = some PyErr.stopIteration ∧
    (setattrF Gex 1 1 hU 4 "rel" (Val.obj 0)).1.getattrD 4 "rel" = Val.obj 0 :=
  ⟨rfl, rfl⟩

end Jsonclasses
